import Mathlib

/-!
Verification of the auto-id certificate registry core.

Part A embeds the DER codec adapter `algorithm_to_der`
(domains/pallets/auto-id/src/tests.rs, lines 87-118) over byte lists
(`Nat` values below 256).  The external `asn1` library primitives it calls
(`to_der_vec` for the OID and the optional parameters, and
`AlgorithmIdentifier::from_der`) are modelled structurally as definite-length
tag-length-value encoders and a matching decoder.

Part B embeds the registry operations (registration, revoke, deactivate);
their pallet source is not part of this tree, so they are modelled from the
specification, with the signature-verification primitive kept abstract.
-/

namespace AutoId

/-- Fixed-width big-endian byte expansion of a natural number; width 8 mirrors
the Rust `usize::to_be_bytes` on a 64-bit target, leading zero bytes included. -/
def beBytes : Nat → Nat → List Nat
  | 0, _ => []
  | w + 1, n => beBytes w (n / 256) ++ [n % 256]

/-- Big-endian value of a byte list, as read back by a length decoder. -/
def beValue (bs : List Nat) : Nat :=
  bs.foldl (fun acc b => acc * 256 + b) 0

/-- Number of base-256 digits of a natural number (0 for 0): the width of its
minimal big-endian encoding. -/
def byteLen (n : Nat) : Nat :=
  if n = 0 then 0 else byteLen (n / 256) + 1
termination_by n
decreasing_by exact Nat.div_lt_self (Nat.pos_of_ne_zero (by assumption)) (by omega)

/-- Minimal DER length octets emitted by the external `to_der_vec` library
primitives: short form below 128, otherwise a length-of-length byte with the
high bit set followed by the minimal big-endian length. -/
def derLength (n : Nat) : List Nat :=
  if n ≤ 127 then [n] else (128 + byteLen n) :: beBytes (byteLen n) n

/-- Definite-length decoder for DER length octets, as the external structural
parser reads them: short form directly; long form rejects the indefinite
marker, the reserved 0xff byte, and more than eight length octets (the
`u64` bound), and otherwise reads the announced number of big-endian octets. -/
def parseLength : List Nat → Option (Nat × List Nat)
  | [] => none
  | b :: rest =>
    if b < 128 then some (b, rest)
    else
      let nb := b - 128
      if nb = 0 then none
      else if nb = 127 then none
      else if nb ≤ 8 ∧ nb ≤ rest.length then
        some (beValue (rest.take nb), rest.drop nb)
      else none

/-- One definite-length tag-length-value element as the structural parser
reads it: the tag byte, then the length octets, then that many content
octets; returns the tag with the content and the unconsumed remainder. -/
def parseElement : List Nat → Option ((Nat × List Nat) × List Nat)
  | [] => none
  | t :: rest =>
    match parseLength rest with
    | none => none
    | some (len, rest') =>
      if len ≤ rest'.length then some ((t, rest'.take len), rest'.drop len)
      else none

/-- Tag-length-value assembly used by the modelled library encoders. -/
def tlv (t : Nat) (content : List Nat) : List Nat :=
  t :: derLength content.length ++ content

/-- Structured algorithm identifier, as produced by the external parser: the
object identifier's content octets and, when present, the parameters element
as its tag and content octets. -/
structure AlgorithmIdentifier where
  algorithm : List Nat
  parameters : Option (Nat × List Nat)
deriving DecidableEq

/-- Modelled library primitive `Oid::to_der_vec`: the OID tag (0x06), minimal
DER length octets, then the content octets. -/
def oid_to_der_vec (content : List Nat) : List Nat :=
  tlv 6 content

/-- Modelled library primitive `Option::<Any>::to_der_vec`: nothing for
absent parameters, otherwise the element's own tag-length-value bytes. -/
def parameters_to_der_vec : Option (Nat × List Nat) → List Nat
  | none => []
  | some (t, c) => tlv t c

/-- Modelled library primitive `AlgorithmIdentifier::from_der`: parse one
SEQUENCE (tag 0x30) element, read an OID (tag 0x06) from its content, then an
optional trailing parameters element filling the rest of the content; return
the structured value and the unconsumed input. -/
def AlgorithmIdentifier.from_der (bs : List Nat) :
    Option (AlgorithmIdentifier × List Nat) :=
  match parseElement bs with
  | none => none
  | some ((t, content), rest) =>
    if t = 48 then
      match parseElement content with
      | none => none
      | some ((t2, oidContent), rest2) =>
        if t2 = 6 then
          if rest2.isEmpty then some (⟨oidContent, none⟩, rest)
          else
            match parseElement rest2 with
            | none => none
            | some ((t3, c3), rest3) =>
              if rest3.isEmpty then some (⟨oidContent, some (t3, c3)⟩, rest)
              else none
        else none
    else none

/-- SEQUENCE content assembled by `algorithm_to_der` (tests.rs lines 89-94):
the concatenated `to_der_vec` forms of the OID and the parameters. -/
def sequence_content (ai : AlgorithmIdentifier) : List Nat :=
  oid_to_der_vec ai.algorithm ++ parameters_to_der_vec ai.parameters

/-- Length octets assembled by `algorithm_to_der` (tests.rs lines 95-109):
single short-form byte for content lengths up to 127, otherwise
`0x80 | 8` (the `usize::to_be_bytes` width on the 64-bit target) followed by
the eight big-endian bytes of the content length. -/
def encoded_sequence_length (content_length : Nat) : List Nat :=
  if content_length > 127 then
    (128 ||| 8) :: beBytes 8 content_length
  else [content_length]

/-- The DER codec adapter `algorithm_to_der` (tests.rs lines 87-118), pure
encoding part: SEQUENCE tag 0x30, then the length octets, then the content. -/
def algorithm_to_der (algorithm_identifier : AlgorithmIdentifier) : List Nat :=
  48 :: encoded_sequence_length (sequence_content algorithm_identifier).length
    ++ sequence_content algorithm_identifier

/-- The adapter together with its internal round-trip assertion (tests.rs
lines 115-116): re-decode the produced bytes and compare with the input;
`none` models the `unwrap`/`assert_eq` panic. -/
def algorithm_to_der_asserted (algorithm_identifier : AlgorithmIdentifier) :
    Option (List Nat) :=
  let d := algorithm_to_der algorithm_identifier
  match AlgorithmIdentifier.from_der d with
  | some (derived, _) =>
    if derived = algorithm_identifier then some d else none
  | none => none

/-- Observable outcome of running the adapter in Rust: a produced byte
vector, a typed `EncodingError` result, or a panic. -/
inductive EncodeOutcome where
  | ok : List Nat → EncodeOutcome
  | encodingError : EncodeOutcome
  | panicked : EncodeOutcome
deriving DecidableEq

/-- The adapter's treatment of its fallible sub-encoders (tests.rs lines
91-92): each `to_der_vec()` result is `unwrap`ped, so a sub-component
failure panics the whole call instead of returning a typed error. -/
def algorithm_to_der_unwrapped (oidResult parametersResult : Option (List Nat)) :
    EncodeOutcome :=
  match oidResult with
  | none => .panicked
  | some o =>
    match parametersResult with
    | none => .panicked
    | some p =>
      .ok (48 :: encoded_sequence_length (o ++ p).length ++ (o ++ p))

/-- Fixed-width little-endian byte expansion: the SCALE encoding of an
unsigned integer, width 8 matching the `u64` identifier type. -/
def leBytes : Nat → Nat → List Nat
  | 0, _ => []
  | w + 1, n => n % 256 :: leBytes w (n / 256)

/-- Little-endian value of a byte list. -/
def leValue : List Nat → Nat
  | [] => 0
  | b :: bs => b + 256 * leValue bs

/-- Modelled from the spec (the pallet's `Identifier` encoding is not in this
tree): the canonical byte encoding of an identifier, the SCALE little-endian
`u64` form that the tests sign (`auto_id_identifier.encode()`). -/
def encodeIdentifier (id : Nat) : List Nat :=
  leBytes 8 id

/-- Modelled from the spec (the pallet's revoke path is not in this tree):
the preimage the authorization engine re-derives for `revoke`, the canonical
byte encoding of the target identifier. -/
def revoke_message (id : Nat) : List Nat :=
  encodeIdentifier id

/-- Modelled from the spec (the pallet's deactivate path is not in this
tree): the preimage the authorization engine re-derives for `deactivate`,
the canonical byte encoding of the target identifier. -/
def deactivate_message (id : Nat) : List Nat :=
  encodeIdentifier id

/-- Modelled from the spec: status of a record held in the store; a
deactivated record is removed from the store entirely, so the store itself
only ever holds `Active` or `Revoked` records. -/
inductive CertificateStatus where
  | Active : CertificateStatus
  | Revoked : CertificateStatus
deriving DecidableEq

/-- Modelled from the spec (the pallet's record type is not in this tree):
a stored certificate record. `subject_public_key_info` and
`subject_common_identifier` are opaque bytes passed through from the caller's
certificate body; `serial` keeps the raw to-be-signed body verbatim;
`signature_algorithm` holds the canonical re-derived DER bytes. -/
structure CertificateRecord where
  subject_public_key_info : List Nat
  subject_common_identifier : List Nat
  issuer_identifier : Nat
  serial : List Nat
  signature_algorithm : List Nat
  signature : List Nat
  status : CertificateStatus
deriving DecidableEq

/-- Modelled from the spec (the pallet's storage items are not in this
tree): the registry state — the identifier-to-record store and the
allocator's next-value counter. -/
@[ext]
structure RegistryState where
  autoIds : Nat → Option CertificateRecord
  nextAutoIdIdentifier : Nat

/-- Modelled from the spec: the error taxonomy reported to callers. -/
inductive AutoIdError where
  | MalformedRequest : AutoIdError
  | IssuerNotFound : AutoIdError
  | RecordNotFound : AutoIdError
  | AlreadyExists : AutoIdError
  | EncodingError : AutoIdError
  | InvalidSignature : AutoIdError
deriving DecidableEq

/-- External signature-verification primitive, kept abstract: public key
material, message bytes, signature bytes to a boolean verdict. -/
def Verify : Type :=
  List Nat → List Nat → List Nat → Bool

/-- Modelled from the spec: `get` — the store lookup; deactivated records
are absent, so lookup of them reports nothing (`RecordNotFound`). -/
def get (s : RegistryState) (id : Nat) : Option CertificateRecord :=
  s.autoIds id

/-- Modelled from the spec: a registration request, the Root or Leaf variant
of `register_auto_id`. -/
inductive RegisterAutoId where
  | Root : (certificate_body signature_algorithm signature : List Nat) → RegisterAutoId
  | Leaf : (issuer_identifier : Nat) →
      (certificate_body signature_algorithm signature : List Nat) → RegisterAutoId

/-- Modelled from the spec: re-derivation of the canonical
`signature_algorithm` bytes through the DER codec adapter — parse the
caller-supplied bytes with the structural parser and re-encode them;
unparseable bytes are a re-encoding failure. -/
def canonicalizeSignatureAlgorithm (bs : List Nat) : Option (List Nat) :=
  match AlgorithmIdentifier.from_der bs with
  | some (ai, rest) => if rest.isEmpty then some (algorithm_to_der ai) else none
  | none => none

/-- Modelled from the spec (the pallet's `register_auto_id` is not in this
tree): validate structure (non-empty fields), for a Leaf check the issuer
exists in the store, re-derive the canonical signature-algorithm bytes, then
allocate the next identifier and insert the record (with the defensive
`AlreadyExists` guard); on any failure the state is returned unchanged and
no identifier is consumed. A Root record's `issuer_identifier` is its own
identifier. -/
def register (req : RegisterAutoId) (s : RegistryState) :
    Except AutoIdError Nat × RegistryState :=
  match req with
  | .Root certificate_body signature_algorithm signature =>
    if certificate_body.isEmpty ∨ signature_algorithm.isEmpty ∨ signature.isEmpty then
      (.error .MalformedRequest, s)
    else
      match canonicalizeSignatureAlgorithm signature_algorithm with
      | none => (.error .EncodingError, s)
      | some canonical =>
        let id := s.nextAutoIdIdentifier
        match s.autoIds id with
        | some _ => (.error .AlreadyExists, s)
        | none =>
          let newRecord : CertificateRecord :=
            { subject_public_key_info := certificate_body
              subject_common_identifier := certificate_body
              issuer_identifier := id
              serial := certificate_body
              signature_algorithm := canonical
              signature := signature
              status := .Active }
          (.ok id,
            { autoIds := fun i => if i = id then some newRecord else s.autoIds i
              nextAutoIdIdentifier := id + 1 })
  | .Leaf issuer_identifier certificate_body signature_algorithm signature =>
    if certificate_body.isEmpty ∨ signature_algorithm.isEmpty ∨ signature.isEmpty then
      (.error .MalformedRequest, s)
    else
      match s.autoIds issuer_identifier with
      | none => (.error .IssuerNotFound, s)
      | some _ =>
        match canonicalizeSignatureAlgorithm signature_algorithm with
        | none => (.error .EncodingError, s)
        | some canonical =>
          let id := s.nextAutoIdIdentifier
          match s.autoIds id with
          | some _ => (.error .AlreadyExists, s)
          | none =>
            let newRecord : CertificateRecord :=
              { subject_public_key_info := certificate_body
                subject_common_identifier := certificate_body
                issuer_identifier := issuer_identifier
                serial := certificate_body
                signature_algorithm := canonical
                signature := signature
                status := .Active }
            (.ok id,
              { autoIds := fun i => if i = id then some newRecord else s.autoIds i
                nextAutoIdIdentifier := id + 1 })

/-- Modelled from the spec (the pallet's `revoke_certificate` is not in this
tree): load the record, re-derive the preimage from the identifier, verify
the supplied signature against the record's own public key material; on
success mark the record `Revoked` (idempotently), on verification failure
report `InvalidSignature` with the state unchanged. -/
def revoke (verify : Verify) (s : RegistryState) (id : Nat) (sig : List Nat) :
    Except AutoIdError Unit × RegistryState :=
  match s.autoIds id with
  | none => (.error .RecordNotFound, s)
  | some r =>
    if verify r.subject_public_key_info (revoke_message id) sig then
      (.ok (),
        { autoIds := fun i =>
            if i = id then some { r with status := .Revoked } else s.autoIds i
          nextAutoIdIdentifier := s.nextAutoIdIdentifier })
    else (.error .InvalidSignature, s)

/-- Modelled from the spec (the pallet's `deactivate_auto_id` is not in this
tree): load the record, re-derive the preimage from the identifier, verify
the supplied signature against the record's own public key material; on
success remove the record from the store, on verification failure report
`InvalidSignature` with the state unchanged. -/
def deactivate (verify : Verify) (s : RegistryState) (id : Nat) (sig : List Nat) :
    Except AutoIdError Unit × RegistryState :=
  match s.autoIds id with
  | none => (.error .RecordNotFound, s)
  | some r =>
    if verify r.subject_public_key_info (deactivate_message id) sig then
      (.ok (),
        { autoIds := fun i => if i = id then none else s.autoIds i
          nextAutoIdIdentifier := s.nextAutoIdIdentifier })
    else (.error .InvalidSignature, s)

/-- Run a sequence of registration requests in order, collecting the
identifiers returned by the successful ones. -/
def runRegistrations : List RegisterAutoId → RegistryState → List Nat × RegistryState
  | [], s => ([], s)
  | req :: reqs, s =>
    match register req s with
    | (.ok id, s') =>
      let rest := runRegistrations reqs s'
      (id :: rest.1, rest.2)
    | (.error _, s') => runRegistrations reqs s'

/-- Allocator invariant: no identifier at or above the next-value counter is
occupied. It holds in the empty registry and every operation preserves it. -/
def Allocated (s : RegistryState) : Prop :=
  ∀ i, s.nextAutoIdIdentifier ≤ i → s.autoIds i = none

/-- The registry at genesis: empty store, counter at the genesis constant
zero. -/
def initialState : RegistryState :=
  { autoIds := fun _ => none, nextAutoIdIdentifier := 0 }

/-- Canonical sample algorithm-identifier bytes (a SEQUENCE holding one OID,
no parameters) used for concrete runs. -/
def sampleAlgorithm : List Nat := [48, 3, 6, 1, 42]

/-- A concrete Root registration request. -/
def sampleRootRequest : RegisterAutoId := .Root [1] sampleAlgorithm [2]

/-- A concrete Leaf registration request naming issuer 0. -/
def sampleLeafRequest : RegisterAutoId := .Leaf 0 [3] sampleAlgorithm [4]

/-- The registry after registering the sample root at genesis. -/
def sampleState : RegistryState := (register sampleRootRequest initialState).2

/-- The record the sample root registration stores under identifier 0. -/
def sampleRecord : CertificateRecord :=
  { subject_public_key_info := [1]
    subject_common_identifier := [1]
    issuer_identifier := 0
    serial := [1]
    signature_algorithm := sampleAlgorithm
    signature := [2]
    status := .Active }

/-- A verification primitive that accepts every signature. -/
def acceptAll : Verify := fun _ _ _ => true

/-- A verification primitive that rejects every signature. -/
def rejectAll : Verify := fun _ _ _ => false

/-- The sample registry after revoking record 0. -/
def sampleRevokedState : RegistryState := (revoke acceptAll sampleState 0 [9]).2

theorem beBytes_length (w n : Nat) : (beBytes w n).length = w := by
  induction w generalizing n with
  | zero => rfl
  | succ w ih => simp [beBytes, ih]

theorem beValue_append (bs : List Nat) (b : Nat) :
    beValue (bs ++ [b]) = beValue bs * 256 + b := by
  simp [beValue, List.foldl_append]

theorem mod_mul_helper (m q r : Nat) (hm : 0 < m) (hr : r < 256) :
    (256 * q + r) % (256 * m) = 256 * (q % m) + r := by
  have hq : q = m * (q / m) + q % m := (Nat.div_add_mod q m).symm
  have hqm : q % m < m := Nat.mod_lt q hm
  calc (256 * q + r) % (256 * m)
      = ((256 * m) * (q / m) + (256 * (q % m) + r)) % (256 * m) := by
        conv_lhs => rw [hq]
        ring_nf
    _ = (256 * (q % m) + r) % (256 * m) := by rw [Nat.mul_add_mod]
    _ = 256 * (q % m) + r := Nat.mod_eq_of_lt (by omega)

theorem beValue_beBytes (w n : Nat) : beValue (beBytes w n) = n % 256 ^ w := by
  induction w generalizing n with
  | zero => simp [beBytes, beValue, Nat.mod_one]
  | succ w ih =>
    have h256 : (0:Nat) < 256 ^ w := Nat.pos_pow_of_pos w (by omega)
    calc beValue (beBytes (w + 1) n)
        = beValue (beBytes w (n / 256)) * 256 + n % 256 := by
          simp [beBytes, beValue_append]
      _ = 256 * ((n / 256) % 256 ^ w) + n % 256 := by rw [ih]; ring
      _ = (256 * (n / 256) + n % 256) % (256 * 256 ^ w) := by
          rw [mod_mul_helper _ _ _ h256 (Nat.mod_lt n (by omega))]
      _ = n % 256 ^ (w + 1) := by
          rw [Nat.div_add_mod]
          congr 1
          rw [Nat.pow_succ]
          ring

theorem beValue_beBytes_of_lt (w n : Nat) (h : n < 256 ^ w) :
    beValue (beBytes w n) = n := by
  rw [beValue_beBytes, Nat.mod_eq_of_lt h]

theorem lt_pow_byteLen (n : Nat) : n < 256 ^ byteLen n := by
  induction n using Nat.strong_induction_on with
  | _ n ih =>
    by_cases h : n = 0
    · subst h; simp [byteLen]
    · rw [byteLen, if_neg h]
      have hlt : n / 256 < n := Nat.div_lt_self (Nat.pos_of_ne_zero h) (by omega)
      have := ih (n / 256) hlt
      have hdiv : n < 256 * (n / 256) + 256 := by omega
      calc n < 256 * (n / 256) + 256 := hdiv
        _ ≤ 256 * (256 ^ byteLen (n / 256) - 1) + 256 := by
            have : n / 256 ≤ 256 ^ byteLen (n / 256) - 1 := by omega
            omega
        _ ≤ 256 ^ (byteLen (n / 256) + 1) := by
            have hp : (0:Nat) < 256 ^ byteLen (n / 256) :=
              Nat.pos_pow_of_pos _ (by omega)
            rw [Nat.pow_succ]
            omega

theorem byteLen_le (k n : Nat) (h : n < 256 ^ k) : byteLen n ≤ k := by
  induction k generalizing n with
  | zero =>
    simp at h
    subst h
    simp [byteLen]
  | succ k ih =>
    by_cases h0 : n = 0
    · subst h0; simp [byteLen]
    · rw [byteLen, if_neg h0]
      have : n / 256 < 256 ^ k := by
        rw [Nat.div_lt_iff_lt_mul (by omega : (0:Nat) < 256)]
        calc n < 256 ^ (k + 1) := h
          _ = 256 ^ k * 256 := by rw [Nat.pow_succ]
      exact Nat.succ_le_succ (ih _ this)

theorem byteLen_pos (n : Nat) (h : 0 < n) : 1 ≤ byteLen n := by
  rw [byteLen, if_neg (by omega)]
  omega

theorem parseLength_short (n : Nat) (h : n ≤ 127) (rest : List Nat) :
    parseLength (n :: rest) = some (n, rest) := by
  simp [parseLength, Nat.lt_succ_iff.mpr h]

theorem parseLength_long (k : Nat) (bs rest : List Nat) (hk1 : 1 ≤ k)
    (hk2 : k ≤ 8) (hlen : bs.length = k) :
    parseLength ((128 + k) :: (bs ++ rest)) = some (beValue bs, rest) := by
  have h1 : ¬ (128 + k < 128) := by omega
  have h2 : 128 + k - 128 = k := by omega
  simp only [parseLength, if_neg h1, h2]
  rw [if_neg (by omega), if_neg (by omega),
    if_pos ⟨hk2, by simp [hlen]⟩]
  rw [List.take_left' hlen, List.drop_left' hlen]

theorem parseLength_derLength (n : Nat) (h : n < 2 ^ 64) (rest : List Nat) :
    parseLength (derLength n ++ rest) = some (n, rest) := by
  by_cases hn : n ≤ 127
  · rw [derLength, if_pos hn]
    exact parseLength_short n hn rest
  · rw [derLength, if_neg hn]
    have h64 : n < 256 ^ 8 := by
      have : (256:Nat) ^ 8 = 2 ^ 64 := by norm_num
      omega
    have hk1 : 1 ≤ byteLen n := byteLen_pos n (by omega)
    have hk2 : byteLen n ≤ 8 := byteLen_le 8 n h64
    have := parseLength_long (byteLen n) (beBytes (byteLen n) n) rest hk1 hk2
      (beBytes_length _ _)
    rw [List.cons_append, this, beValue_beBytes_of_lt _ _ (lt_pow_byteLen n)]

theorem parseElement_tlv (t : Nat) (c rest : List Nat) (h : c.length < 2 ^ 64) :
    parseElement (tlv t c ++ rest) = some ((t, c), rest) := by
  have : tlv t c ++ rest = t :: (derLength c.length ++ (c ++ rest)) := by
    simp [tlv]
  rw [this]
  simp only [parseElement, parseLength_derLength _ h]
  rw [if_pos (by simp), List.take_left' rfl, List.drop_left' rfl]

theorem lor_128_8 : (128 ||| 8 : Nat) = 128 + 8 := by decide

theorem parseLength_encoded (L : Nat) (h : L < 2 ^ 64) (rest : List Nat) :
    parseLength (encoded_sequence_length L ++ rest) = some (L, rest) := by
  by_cases hL : L > 127
  · rw [encoded_sequence_length, if_pos hL, lor_128_8, List.cons_append]
    rw [parseLength_long 8 (beBytes 8 L) rest (by omega) (by omega)
      (beBytes_length 8 L)]
    have h64 : L < 256 ^ 8 := by
      have : (256:Nat) ^ 8 = 2 ^ 64 := by norm_num
      omega
    rw [beValue_beBytes_of_lt 8 L h64]
  · rw [encoded_sequence_length, if_neg hL, List.singleton_append]
    exact parseLength_short L (by omega) rest

theorem parseElement_cons (t : Nat) (rest : List Nat) :
    parseElement (t :: rest)
      = match parseLength rest with
        | none => none
        | some (len, rest') =>
          if len ≤ rest'.length then some ((t, rest'.take len), rest'.drop len)
          else none := rfl

theorem parseElement_algorithm_to_der (ai : AlgorithmIdentifier)
    (h : (sequence_content ai).length < 2 ^ 64) :
    parseElement (algorithm_to_der ai) = some ((48, sequence_content ai), []) := by
  rw [algorithm_to_der, List.cons_append, parseElement_cons, parseLength_encoded _ h]
  simp

theorem length_derLength_pos (n : Nat) : 1 ≤ (derLength n).length := by
  rw [derLength]
  split <;> simp

theorem length_tlv (t : Nat) (c : List Nat) :
    (tlv t c).length = 1 + (derLength c.length).length + c.length := by
  simp [tlv]
  omega

theorem from_der_algorithm_to_der (ai : AlgorithmIdentifier)
    (h : (sequence_content ai).length < 2 ^ 64) :
    AlgorithmIdentifier.from_der (algorithm_to_der ai) = some (ai, []) := by
  obtain ⟨alg, params⟩ := ai
  have hlen : (sequence_content ⟨alg, params⟩).length
      = (tlv 6 alg).length + (parameters_to_der_vec params).length := by
    simp [sequence_content, oid_to_der_vec]
  have hoid : alg.length < 2 ^ 64 := by
    have h1 := length_tlv 6 alg
    have h2 := length_derLength_pos alg.length
    omega
  simp only [AlgorithmIdentifier.from_der, parseElement_algorithm_to_der ⟨alg, params⟩ h]
  cases params with
  | none =>
    have hc : sequence_content ⟨alg, none⟩ = tlv 6 alg ++ [] := by
      simp [sequence_content, oid_to_der_vec, parameters_to_der_vec]
    rw [hc, parseElement_tlv 6 alg [] hoid]
    simp
  | some tc =>
    obtain ⟨t3, c3⟩ := tc
    have hc : sequence_content ⟨alg, some (t3, c3)⟩ = tlv 6 alg ++ tlv t3 c3 := by
      simp [sequence_content, oid_to_der_vec, parameters_to_der_vec]
    have hc3 : c3.length < 2 ^ 64 := by
      have h1 := length_tlv 6 alg
      have h2 := length_tlv t3 c3
      have h3 := length_derLength_pos c3.length
      simp only [parameters_to_der_vec] at hlen
      omega
    rw [hc, parseElement_tlv 6 alg (tlv t3 c3) hoid]
    have htlv3 : parseElement (t3 :: (derLength c3.length ++ c3)) = some ((t3, c3), []) := by
      have := parseElement_tlv t3 c3 [] hc3
      simpa [tlv] using this
    simp [tlv, htlv3]

theorem beBytes_zero (w : Nat) : beBytes w 0 = List.replicate w 0 := by
  induction w with
  | zero => rfl
  | succ w ih => simp [beBytes, ih, List.replicate_succ']

/-- Claim C2: for every structurally valid algorithm identifier, decoding the
adapter's output with the same structural parser returns a value equal to the
input with nothing left over, and therefore the adapter's internal round-trip
assertion (re-decode and compare, run on every encode) succeeds. -/
theorem claim_C2_round_trip (ai : AlgorithmIdentifier)
    (h : (sequence_content ai).length < 2 ^ 64) :
    AlgorithmIdentifier.from_der (algorithm_to_der ai) = some (ai, []) ∧
    algorithm_to_der_asserted ai = some (algorithm_to_der ai) := by
  have h1 := from_der_algorithm_to_der ai h
  refine ⟨h1, ?_⟩
  simp [algorithm_to_der_asserted, h1]

theorem claim_C2_witness :
    AlgorithmIdentifier.from_der (algorithm_to_der ⟨[42], some (5, [])⟩)
      = some (⟨[42], some (5, [])⟩, []) ∧
    algorithm_to_der_asserted ⟨[42], some (5, [])⟩
      = some (algorithm_to_der ⟨[42], some (5, [])⟩) :=
  claim_C2_round_trip ⟨[42], some (5, [])⟩ (by decide)

/-- Claim C7: the adapter's output is the SEQUENCE tag byte 0x30, then the
length octets, then the content, where the content is the concatenation of
the DER-TLV forms of the OID and the parameters; the length octets are one
byte holding the content length when it is at most 127, and otherwise a
length-of-length byte with the high bit set followed by big-endian octets
that denote the content length. -/
theorem claim_C7_encoding_structure (ai : AlgorithmIdentifier)
    (h : (sequence_content ai).length < 2 ^ 64) :
    algorithm_to_der ai
      = [48] ++ encoded_sequence_length (sequence_content ai).length
          ++ (oid_to_der_vec ai.algorithm ++ parameters_to_der_vec ai.parameters) ∧
    ((sequence_content ai).length ≤ 127 →
      encoded_sequence_length (sequence_content ai).length
        = [(sequence_content ai).length]) ∧
    (127 < (sequence_content ai).length →
      ∃ bs : List Nat,
        encoded_sequence_length (sequence_content ai).length
          = (128 + bs.length) :: bs ∧
        beValue bs = (sequence_content ai).length) := by
  refine ⟨by simp [algorithm_to_der, sequence_content], ?_, ?_⟩
  · intro hle
    rw [encoded_sequence_length, if_neg (by omega)]
  · intro hgt
    refine ⟨beBytes 8 (sequence_content ai).length, ?_, ?_⟩
    · rw [encoded_sequence_length, if_pos hgt, lor_128_8, beBytes_length]
    · have h64 : (sequence_content ai).length < 256 ^ 8 := by
        have : (256:Nat) ^ 8 = 2 ^ 64 := by norm_num
        omega
      exact beValue_beBytes_of_lt 8 _ h64

theorem claim_C7_witness :
    algorithm_to_der ⟨[42], none⟩
      = [48] ++ encoded_sequence_length (sequence_content ⟨[42], none⟩).length
          ++ (oid_to_der_vec [42] ++ parameters_to_der_vec none) ∧
    encoded_sequence_length (sequence_content ⟨[42], none⟩).length
      = [(sequence_content ⟨[42], none⟩).length] :=
  ⟨(claim_C7_encoding_structure ⟨[42], none⟩ (by decide)).1,
   (claim_C7_encoding_structure ⟨[42], none⟩ (by decide)).2.1 (by decide)⟩

/-- Claim C9 counterexample: when the OID sub-encoder fails, the adapter does
not return a typed `EncodingError` result — the `unwrap` on the sub-encoder's
result panics instead. -/
theorem claim_C9_counterexample :
    algorithm_to_der_unwrapped none (some []) = .panicked ∧
    algorithm_to_der_unwrapped none (some []) ≠ .encodingError := by
  exact ⟨rfl, by decide⟩

/-- Claim C9 (amended): if either sub-component fails to encode, the whole
adapter call aborts by panic (the `unwrap` of the sub-encoder result) and
produces no partial output; no typed `EncodingError` result exists on any
path, and an `ok` output arises only when both sub-components succeed. -/
theorem claim_C9_amended (o p : Option (List Nat)) :
    (o = none ∨ p = none → algorithm_to_der_unwrapped o p = .panicked) ∧
    algorithm_to_der_unwrapped o p ≠ .encodingError ∧
    (∀ bs, algorithm_to_der_unwrapped o p = .ok bs → o ≠ none ∧ p ≠ none) := by
  cases o <;> cases p <;> simp [algorithm_to_der_unwrapped]

theorem claim_C9_witness :
    algorithm_to_der_unwrapped none none = .panicked :=
  (claim_C9_amended none none).1 (Or.inl rfl)

/-- Claim C10: whenever the SEQUENCE content is longer than 127 bytes, the
adapter emits the long-form length as the length-of-length byte
`0x80 ||| 8` (eight being the byte width of `usize` on the 64-bit target,
giving 0x88 = 136) followed by exactly eight big-endian bytes of the content
length, leading zero bytes included regardless of how small the length is —
in particular, for lengths below 256 the first seven length bytes are all
zero. -/
theorem claim_C10_long_form (ai : AlgorithmIdentifier)
    (h1 : 127 < (sequence_content ai).length)
    (h2 : (sequence_content ai).length < 2 ^ 64) :
    algorithm_to_der ai
      = 48 :: ((128 ||| 8) :: beBytes 8 (sequence_content ai).length
          ++ sequence_content ai) ∧
    (128 ||| 8 : Nat) = 136 ∧
    (beBytes 8 (sequence_content ai).length).length = 8 ∧
    beValue (beBytes 8 (sequence_content ai).length)
      = (sequence_content ai).length ∧
    ((sequence_content ai).length < 256 →
      beBytes 8 (sequence_content ai).length
        = [0, 0, 0, 0, 0, 0, 0, (sequence_content ai).length]) := by
  refine ⟨?_, by decide, beBytes_length 8 _, ?_, ?_⟩
  · rw [algorithm_to_der, encoded_sequence_length, if_pos h1]
    simp
  · have h64 : (sequence_content ai).length < 256 ^ 8 := by
      have : (256:Nat) ^ 8 = 2 ^ 64 := by norm_num
      omega
    exact beValue_beBytes_of_lt 8 _ h64
  · intro hsmall
    have hd : (sequence_content ai).length / 256 = 0 := Nat.div_eq_of_lt hsmall
    have hm : (sequence_content ai).length % 256 = (sequence_content ai).length :=
      Nat.mod_eq_of_lt hsmall
    show beBytes 7 ((sequence_content ai).length / 256)
        ++ [(sequence_content ai).length % 256] = _
    rw [hd, hm, beBytes_zero]
    rfl

set_option maxRecDepth 40000 in
theorem claim_C10_witness :
    algorithm_to_der ⟨List.replicate 126 7, none⟩
      = 48 :: ((128 ||| 8)
          :: beBytes 8 (sequence_content ⟨List.replicate 126 7, none⟩).length
          ++ sequence_content ⟨List.replicate 126 7, none⟩) ∧
    beBytes 8 (sequence_content ⟨List.replicate 126 7, none⟩).length
      = [0, 0, 0, 0, 0, 0, 0, (sequence_content ⟨List.replicate 126 7, none⟩).length] := by
  have h := claim_C10_long_form ⟨List.replicate 126 7, none⟩ (by decide) (by decide)
  exact ⟨h.1, h.2.2.2.2 (by decide)⟩

theorem leValue_leBytes (w n : Nat) : leValue (leBytes w n) = n % 256 ^ w := by
  induction w generalizing n with
  | zero => simp [leBytes, leValue, Nat.mod_one]
  | succ w ih =>
    have h256 : (0:Nat) < 256 ^ w := Nat.pos_pow_of_pos w (by omega)
    calc leValue (leBytes (w + 1) n)
        = n % 256 + 256 * ((n / 256) % 256 ^ w) := by simp [leBytes, leValue, ih]
      _ = (256 * (n / 256) + n % 256) % (256 * 256 ^ w) := by
          rw [mod_mul_helper _ _ _ h256 (Nat.mod_lt n (by omega))]
          ring
      _ = n % 256 ^ (w + 1) := by
          rw [Nat.div_add_mod]
          congr 1
          rw [Nat.pow_succ]
          ring

theorem register_ok_elim {req : RegisterAutoId} {s : RegistryState} {id : Nat}
    {s' : RegistryState} (h : register req s = (.ok id, s')) :
    id = s.nextAutoIdIdentifier
      ∧ s'.nextAutoIdIdentifier = s.nextAutoIdIdentifier + 1 := by
  cases req <;> simp only [register] at h <;> (repeat' split at h) <;>
    simp only [Prod.mk.injEq] at h <;>
    first
      | exact Except.noConfusion h.1
      | · obtain ⟨h1, h2⟩ := h
          subst h2
          exact ⟨(Except.ok.inj h1).symm, rfl⟩

theorem register_error_elim {req : RegisterAutoId} {s : RegistryState}
    {e : AutoIdError} {s' : RegistryState} (h : register req s = (.error e, s')) :
    s' = s := by
  cases req <;> simp only [register] at h <;> (repeat' split at h) <;>
    simp only [Prod.mk.injEq] at h <;>
    first
      | exact Except.noConfusion h.1
      | exact h.2.symm

theorem runRegistrations_ids (reqs : List RegisterAutoId) (s : RegistryState) :
    (runRegistrations reqs s).1
      = List.range' s.nextAutoIdIdentifier (runRegistrations reqs s).1.length := by
  induction reqs generalizing s with
  | nil => rfl
  | cons req reqs ih =>
    rcases hreg : register req s with ⟨res, s'⟩
    cases res with
    | ok id =>
      obtain ⟨hid, hnext⟩ := register_ok_elim hreg
      simp only [runRegistrations, hreg]
      rw [List.length_cons, List.range'_succ, ← hid, ih s', hnext, hid]
      simp [List.length_range']
    | error e =>
      have hs : s' = s := register_error_elim hreg
      simp only [runRegistrations, hreg, hs]
      exact ih s

theorem revoke_ok_elim {verify : Verify} {s : RegistryState} {id : Nat}
    {sig : List Nat} {s' : RegistryState}
    (h : revoke verify s id sig = (.ok (), s')) :
    ∃ r, s.autoIds id = some r
      ∧ verify r.subject_public_key_info (revoke_message id) sig = true
      ∧ s' = { autoIds := fun i =>
                 if i = id then some { r with status := .Revoked } else s.autoIds i
               nextAutoIdIdentifier := s.nextAutoIdIdentifier } := by
  unfold revoke at h
  split at h
  · exact Except.noConfusion (Prod.mk.inj h).1
  · split at h
    · refine ⟨_, by assumption, by assumption, ((Prod.mk.inj h).2).symm⟩
    · exact Except.noConfusion (Prod.mk.inj h).1

theorem deactivate_ok_elim {verify : Verify} {s : RegistryState} {id : Nat}
    {sig : List Nat} {s' : RegistryState}
    (h : deactivate verify s id sig = (.ok (), s')) :
    ∃ r, s.autoIds id = some r
      ∧ verify r.subject_public_key_info (deactivate_message id) sig = true
      ∧ s' = { autoIds := fun i => if i = id then none else s.autoIds i
               nextAutoIdIdentifier := s.nextAutoIdIdentifier } := by
  unfold deactivate at h
  split at h
  · exact Except.noConfusion (Prod.mk.inj h).1
  · split at h
    · refine ⟨_, by assumption, by assumption, ((Prod.mk.inj h).2).symm⟩
    · exact Except.noConfusion (Prod.mk.inj h).1

/-- Claim C1: for a stored record, `revoke` and `deactivate` succeed exactly
when the supplied signature verifies against the target record's own public
key material over the recomputed preimage; when verification fails the
operation reports `InvalidSignature` and returns the state — hence the
record's status — unchanged. -/
theorem claim_C1_authorization_soundness (verify : Verify) (s : RegistryState)
    (id : Nat) (sig : List Nat) (r : CertificateRecord)
    (h : get s id = some r) :
    ((revoke verify s id sig).1 = .ok ()
        ↔ verify r.subject_public_key_info (revoke_message id) sig = true) ∧
    ((deactivate verify s id sig).1 = .ok ()
        ↔ verify r.subject_public_key_info (deactivate_message id) sig = true) ∧
    (verify r.subject_public_key_info (revoke_message id) sig = false →
        revoke verify s id sig = (.error .InvalidSignature, s)) ∧
    (verify r.subject_public_key_info (deactivate_message id) sig = false →
        deactivate verify s id sig = (.error .InvalidSignature, s)) := by
  have hs : s.autoIds id = some r := h
  refine ⟨?_, ?_, ?_, ?_⟩ <;>
    [skip; skip; intro hv; intro hv] <;>
    simp only [revoke, deactivate, hs] <;>
    rcases hb : verify r.subject_public_key_info (revoke_message id) sig <;>
    rcases hb' : verify r.subject_public_key_info (deactivate_message id) sig <;>
    simp_all

theorem claim_C1_witness :
    ((revoke acceptAll sampleState 0 [2]).1 = .ok ()
        ↔ acceptAll sampleRecord.subject_public_key_info (revoke_message 0) [2] = true) ∧
    (revoke rejectAll sampleState 0 [2] = (.error .InvalidSignature, sampleState)) ∧
    (deactivate rejectAll sampleState 0 [2] = (.error .InvalidSignature, sampleState)) :=
  ⟨(claim_C1_authorization_soundness acceptAll sampleState 0 [2] sampleRecord rfl).1,
   (claim_C1_authorization_soundness rejectAll sampleState 0 [2] sampleRecord rfl).2.2.1 rfl,
   (claim_C1_authorization_soundness rejectAll sampleState 0 [2] sampleRecord rfl).2.2.2 rfl⟩

/-- Claim C3: the allocator — a successful registration returns the pre-call
counter value and advances the counter by exactly one, a failed registration
leaves the state unchanged, and over any request sequence the identifiers
returned by the successful registrations form the gap-free, repeat-free,
strictly increasing run starting at the initial counter value. -/
theorem claim_C3_allocator_monotonicity :
    (∀ req s id s', register req s = (.ok id, s') →
        id = s.nextAutoIdIdentifier
          ∧ s'.nextAutoIdIdentifier = s.nextAutoIdIdentifier + 1) ∧
    (∀ req s e s', register req s = (.error e, s') → s' = s) ∧
    (∀ reqs s,
      (runRegistrations reqs s).1
          = List.range' s.nextAutoIdIdentifier (runRegistrations reqs s).1.length ∧
      (runRegistrations reqs s).1.Pairwise (· < ·)) := by
  refine ⟨fun req s id s' h => register_ok_elim h,
          fun req s e s' h => register_error_elim h,
          fun reqs s => ⟨runRegistrations_ids reqs s, ?_⟩⟩
  rw [runRegistrations_ids reqs s]
  exact List.pairwise_lt_range' _ _ 1 (by omega)

theorem claim_C3_witness :
    (0 = initialState.nextAutoIdIdentifier
      ∧ sampleState.nextAutoIdIdentifier = initialState.nextAutoIdIdentifier + 1) ∧
    (runRegistrations [sampleRootRequest, sampleLeafRequest] initialState).1 = [0, 1] := by
  refine ⟨claim_C3_allocator_monotonicity.1 sampleRootRequest initialState 0 sampleState
    (Prod.ext rfl rfl), ?_⟩
  have h := (claim_C3_allocator_monotonicity.2.2
    [sampleRootRequest, sampleLeafRequest] initialState).1
  exact h.trans rfl

/-- Claim C4: issuer linkage for Leaf registration with structurally valid
fields — when the issuer identifier is absent from the store (in particular
after the issuer record was deactivated and removed) the registration fails
with `IssuerNotFound` and no state change; when the issuer exists the
registration succeeds and the stored record's `issuer_identifier` equals the
supplied identifier. -/
theorem claim_C4_issuer_linkage (issuer : Nat) (body alg sig : List Nat)
    (hb : body.isEmpty = false) (ha : alg.isEmpty = false)
    (hs : sig.isEmpty = false)
    (halg : ∃ c, canonicalizeSignatureAlgorithm alg = some c)
    (s : RegistryState) :
    (get s issuer = none →
      register (.Leaf issuer body alg sig) s = (.error .IssuerNotFound, s)) ∧
    (Allocated s → ∀ r, get s issuer = some r →
      ∃ rec,
        (register (.Leaf issuer body alg sig) s).1 = .ok s.nextAutoIdIdentifier ∧
        get (register (.Leaf issuer body alg sig) s).2 s.nextAutoIdIdentifier
            = some rec ∧
        rec.issuer_identifier = issuer) ∧
    (∀ verify s₀ sig',
      deactivate verify s₀ issuer sig' = (.ok (), s) →
      register (.Leaf issuer body alg sig) s = (.error .IssuerNotFound, s)) := by
  obtain ⟨c, hc⟩ := halg
  have hmal : ¬ (body.isEmpty = true ∨ alg.isEmpty = true ∨ sig.isEmpty = true) := by
    simp [hb, ha, hs]
  have hb2 : body ≠ [] := fun hh => by simp [hh] at hb
  have ha2 : alg ≠ [] := fun hh => by simp [hh] at ha
  have hs2 : sig ≠ [] := fun hh => by simp [hh] at hs
  refine ⟨?_, ?_, ?_⟩
  · intro hnone
    have hnone' : s.autoIds issuer = none := hnone
    simp only [register, if_neg hmal, hnone']
  · intro halloc r hr
    have hr' : s.autoIds issuer = some r := hr
    have hfree : s.autoIds s.nextAutoIdIdentifier = none :=
      halloc s.nextAutoIdIdentifier (Nat.le_refl _)
    refine ⟨{ subject_public_key_info := body
              subject_common_identifier := body
              issuer_identifier := issuer
              serial := body
              signature_algorithm := c
              signature := sig
              status := .Active }, ?_, ?_, rfl⟩ <;>
      simp [register, if_neg hmal, hr', hc, hfree, get, hb2, ha2, hs2]
  · intro verify s₀ sig' hdeact
    obtain ⟨r₀, _, _, hs'⟩ := deactivate_ok_elim hdeact
    have hnone' : s.autoIds issuer = none := by
      rw [hs']
      simp
    simp only [register, if_neg hmal, hnone']

theorem claim_C4_witness :
    (register (.Leaf 3 [3] sampleAlgorithm [4]) initialState
        = (.error .IssuerNotFound, initialState)) ∧
    (∃ rec,
      (register sampleLeafRequest sampleState).1
          = .ok sampleState.nextAutoIdIdentifier ∧
      get (register sampleLeafRequest sampleState).2 sampleState.nextAutoIdIdentifier
          = some rec ∧
      rec.issuer_identifier = 0) ∧
    (register sampleLeafRequest (deactivate acceptAll sampleState 0 [9]).2
        = (.error .IssuerNotFound, (deactivate acceptAll sampleState 0 [9]).2)) := by
  refine ⟨(claim_C4_issuer_linkage 3 [3] sampleAlgorithm [4] rfl rfl rfl
    ⟨sampleAlgorithm, rfl⟩ initialState).1 rfl, ?_, ?_⟩
  · exact (claim_C4_issuer_linkage 0 [3] sampleAlgorithm [4] rfl rfl rfl
      ⟨sampleAlgorithm, rfl⟩ sampleState).2.1
      (fun i hi => by
        have h1 : sampleState.nextAutoIdIdentifier = 1 := rfl
        rw [h1] at hi
        show (if i = 0 then some sampleRecord else none) = none
        rw [if_neg (by omega)])
      sampleRecord rfl
  · exact (claim_C4_issuer_linkage 0 [3] sampleAlgorithm [4] rfl rfl rfl
      ⟨sampleAlgorithm, rfl⟩ (deactivate acceptAll sampleState 0 [9]).2).2.2
      acceptAll sampleState [9] (Prod.ext rfl rfl)

/-- Claim C5: a successful `deactivate` removes the record from the store
entirely — `get` of the identifier reports nothing, and subsequent lifecycle
operations on it fail with `RecordNotFound`, exactly as if the record had
never existed. -/
theorem claim_C5_deactivate_removes (verify : Verify) (s : RegistryState)
    (id : Nat) (sig : List Nat) (s' : RegistryState)
    (h : deactivate verify s id sig = (.ok (), s')) :
    get s' id = none ∧
    (∀ verify' sig',
      (revoke verify' s' id sig').1 = .error .RecordNotFound ∧
      (deactivate verify' s' id sig').1 = .error .RecordNotFound) := by
  obtain ⟨r, _, _, hs'⟩ := deactivate_ok_elim h
  have hnone : s'.autoIds id = none := by
    rw [hs']
    simp
  exact ⟨hnone, fun verify' sig' => by simp [revoke, deactivate, hnone]⟩

theorem claim_C5_witness :
    get (deactivate acceptAll sampleState 0 [9]).2 0 = none ∧
    (revoke acceptAll (deactivate acceptAll sampleState 0 [9]).2 0 [7]).1
        = .error .RecordNotFound ∧
    (deactivate acceptAll (deactivate acceptAll sampleState 0 [9]).2 0 [7]).1
        = .error .RecordNotFound := by
  have h := claim_C5_deactivate_removes acceptAll sampleState 0 [9]
    (deactivate acceptAll sampleState 0 [9]).2 (Prod.ext rfl rfl)
  exact ⟨h.1, h.2 acceptAll [7]⟩

theorem revoke_of_revoked {verify : Verify} {s : RegistryState} {id : Nat}
    {sig : List Nat} {r : CertificateRecord} (hr : s.autoIds id = some r)
    (hstatus : r.status = .Revoked)
    (hver : verify r.subject_public_key_info (revoke_message id) sig = true) :
    revoke verify s id sig = (.ok (), s) := by
  have hrec : { r with status := CertificateStatus.Revoked } = r := by
    cases r
    cases hstatus
    rfl
  simp only [revoke, hr, hver, if_true]
  refine Prod.ext rfl ?_
  refine RegistryState.ext ?_ rfl
  funext i
  by_cases hi : i = id
  · subst hi
    show (if i = i then some { r with status := .Revoked } else s.autoIds i)
        = s.autoIds i
    rw [if_pos rfl, hrec, hr]
  · show (if i = id then some { r with status := .Revoked } else s.autoIds i)
        = s.autoIds i
    rw [if_neg hi]

/-- Claim C6: after a successful `revoke` the record remains retrievable with
status `Revoked`, and a second `revoke` of the same identifier with a valid
signature is an idempotent no-op success returning the state unchanged. -/
theorem claim_C6_revoke_then_idempotent (verify : Verify) (s : RegistryState)
    (id : Nat) (sig : List Nat) (s' : RegistryState)
    (h : revoke verify s id sig = (.ok (), s')) :
    (∃ r, get s' id = some r ∧ r.status = .Revoked) ∧
    (∀ sig' r', get s' id = some r' →
      verify r'.subject_public_key_info (revoke_message id) sig' = true →
      revoke verify s' id sig' = (.ok (), s')) := by
  obtain ⟨r, hr, hv, hs'⟩ := revoke_ok_elim h
  have hget : s'.autoIds id = some { r with status := .Revoked } := by
    rw [hs']
    simp
  refine ⟨⟨{ r with status := .Revoked }, hget, rfl⟩, ?_⟩
  intro sig' r' hget' hver
  have hget'' : s'.autoIds id = some r' := hget'
  have hr' : r' = { r with status := .Revoked } :=
    (Option.some.inj (hget.symm.trans hget'')).symm
  exact revoke_of_revoked hget'' (by rw [hr']) hver

theorem claim_C6_witness :
    (∃ r, get sampleRevokedState 0 = some r ∧ r.status = .Revoked) ∧
    revoke acceptAll sampleRevokedState 0 [7] = (.ok (), sampleRevokedState) := by
  have h := claim_C6_revoke_then_idempotent acceptAll sampleState 0 [9]
    sampleRevokedState (Prod.ext rfl rfl)
  exact ⟨h.1, h.2 [7] { sampleRecord with status := .Revoked } rfl rfl⟩

/-- Claim C8: both lifecycle operations verify the signature over the same
preimage, deterministically derived from the target identifier alone as its
canonical (little-endian 8-byte) encoding; the encoding is injective on the
`u64` identifier range, so distinct identifiers never share a preimage. -/
theorem claim_C8_shared_preimage (id j : Nat) (hid : id < 2 ^ 64)
    (hj : j < 2 ^ 64) :
    revoke_message id = encodeIdentifier id ∧
    deactivate_message id = encodeIdentifier id ∧
    revoke_message id = deactivate_message id ∧
    (encodeIdentifier id = encodeIdentifier j → id = j) := by
  refine ⟨rfl, rfl, rfl, fun h => ?_⟩
  have h64 : (256:Nat) ^ 8 = 2 ^ 64 := by norm_num
  have hv := congrArg leValue h
  rw [show encodeIdentifier id = leBytes 8 id from rfl,
    show encodeIdentifier j = leBytes 8 j from rfl,
    leValue_leBytes, leValue_leBytes, h64,
    Nat.mod_eq_of_lt hid, Nat.mod_eq_of_lt hj] at hv
  exact hv

theorem claim_C8_witness :
    revoke_message 5 = encodeIdentifier 5 ∧
    deactivate_message 5 = encodeIdentifier 5 ∧
    revoke_message 5 = deactivate_message 5 ∧
    (encodeIdentifier 5 = encodeIdentifier 5 → 5 = 5) :=
  claim_C8_shared_preimage 5 5 (by norm_num) (by norm_num)

end AutoId
